import Mathlib

/-!
Shallow embedding of the CORD-19 metadata analysis pipeline
(`cord19_analysis.py` and `streamlit_app.py`): the data model (Table /
cleaned table), the cleaning step `clean_data`, and the four aggregation
operations built on `value_counts`, together with theorems checking the
specification's claims about them.
-/

namespace Cord19

/-- Calendar date, the result of a successful `pd.to_datetime` parse. -/
structure Date where
  year : Int
  month : Nat
  day : Nat
deriving DecidableEq, Repr

/-- Split a character list at every dash, keeping empty pieces, like
`s.split('-')`. -/
def splitDash : List Char → List Char → List (List Char)
  | [], acc => [acc.reverse]
  | c :: cs, acc =>
    if c = '-' then acc.reverse :: splitDash cs []
    else splitDash cs (c :: acc)

/-- Read a character list as an unsigned decimal number, `none` when it is
empty or holds a non-digit. -/
def toNatChars (cs : List Char) : Option Nat :=
  if cs.isEmpty then none
  else if cs.all Char.isDigit then
    some (cs.foldl (fun n c => n * 10 + (c.toNat - 48)) 0)
  else none

/-- Model of `pd.to_datetime(s, errors='coerce')` applied to one cell, for
ISO `YYYY-MM-DD` date strings (the format exercised by the spec's
scenarios): a parse failure yields `none` (pandas `NaT`) instead of
raising. -/
def parseDate (s : String) : Option Date :=
  match splitDash s.data [] with
  | [y, m, d] =>
    match toNatChars y, toNatChars m, toNatChars d with
    | some yn, some mn, some dn =>
      if y.length = 4 ∧ 1 ≤ mn ∧ mn ≤ 12 ∧ 1 ≤ dn ∧ dn ≤ 31 then
        some ⟨(yn : Int), mn, dn⟩
      else none
    | _, _, _ => none
  | _ => none

/-- Value of the `publish_time` column of one row: either still the raw
text from the file (possibly missing), or already converted to a datetime
(possibly `NaT`) by a previous cleaning pass. -/
inductive PTime where
  | raw (s : Option String)
  | parsed (d : Option Date)
deriving DecidableEq, Repr

/-- Model of `pd.to_datetime(column, errors='coerce')` on one cell: raw
text is parsed (missing text gives `NaT`), an already-converted datetime
cell is left unchanged. -/
def toDatetime : PTime → Option Date
  | .raw none => none
  | .raw (some s) => parseDate s
  | .parsed d => d

/-- One record of the metadata table.  Every field is optional because the
CSV may have missing values; `year` and `abstract_word_count` are the
derived columns, meaningful only when listed in the table's `cols`. -/
structure Row where
  title : Option String := none
  abstract : Option String := none
  publish_time : PTime := .raw none
  journal : Option String := none
  source_x : Option String := none
  year : Option Int := none
  abstract_word_count : Option Nat := none
deriving DecidableEq, Repr

/-- A dataframe: ordered column names plus rows.  A column of the
dataframe exists exactly when its name is in `cols`; a `Row` field is
read only when the corresponding column exists. -/
structure Table where
  cols : List String
  rows : List Row
deriving DecidableEq, Repr

/-- Model of assigning to `df[c]`: an existing column keeps its position,
a new column is appended at the end. -/
def addCol (cols : List String) (c : String) : List String :=
  if c ∈ cols then cols else cols ++ [c]

/-- Model of Python `s.split()` (split on whitespace runs, no empty
tokens), working on the character list. -/
def splitWsAux : List Char → List Char → List String
  | [], acc => if acc.isEmpty then [] else [String.mk acc.reverse]
  | c :: cs, acc =>
    if c.isWhitespace then
      if acc.isEmpty then splitWsAux cs []
      else String.mk acc.reverse :: splitWsAux cs []
    else splitWsAux cs (c :: acc)

/-- Python `s.split()`. -/
def pySplit (s : String) : List String := splitWsAux s.data []

/-- Model of `s.split()` followed by `len`: the abstract word count of one
cell. -/
def wordCount (s : String) : Nat := (pySplit s).length

/-- Per-row effect of the `publish_time` block of `clean_data`: convert
`publish_time` with `errors='coerce'` and derive `year` from it. -/
def enrichPT (r : Row) : Row :=
  let d := toDatetime r.publish_time
  { r with publish_time := .parsed d, year := d.map Date.year }

/-- Per-row effect of the `abstract` block of `clean_data`:
`abstract.fillna('').str.split().str.len()`. -/
def enrichAbs (r : Row) : Row :=
  { r with abstract_word_count := some (wordCount (r.abstract.getD "")) }

/-- The `if 'publish_time' in columns` block of `clean_data`. -/
def step1 (t : Table) : Table :=
  if "publish_time" ∈ t.cols then
    { cols := addCol t.cols "year", rows := t.rows.map enrichPT }
  else t

/-- The `if 'abstract' in columns` block of `clean_data`. -/
def step2 (t : Table) : Table :=
  if "abstract" ∈ t.cols then
    { cols := addCol t.cols "abstract_word_count", rows := t.rows.map enrichAbs }
  else t

/-- The `if 'title' in columns: dropna(subset=['title'])` block of
`clean_data`. -/
def step3 (t : Table) : Table :=
  if "title" ∈ t.cols then
    { t with rows := t.rows.filter (fun r => r.title.isSome) }
  else t

/-- Model of `clean_data` (identical in `cord19_analysis.py` and
`streamlit_app.py`): datetime conversion and `year` derivation, abstract
word count, then dropping rows with missing `title`. -/
def clean_data (t : Table) : Table := step3 (step2 (step1 t))

/-- Combined per-row effect of `clean_data` on a table whose
`publish_time` column exists iff `hpt` and whose `abstract` column exists
iff `hab`. -/
def cleanRow (hpt hab : Prop) [Decidable hpt] [Decidable hab] (r : Row) : Row :=
  let r1 := if hpt then enrichPT r else r
  if hab then enrichAbs r1 else r1

/-- The non-missing `year` values of a table, in row order (pandas
`value_counts` drops `NaN` before counting). -/
def yearValues (t : Table) : List Int := t.rows.filterMap (fun r => r.year)

/-- The non-missing `journal` values of a table, in row order. -/
def journalValues (t : Table) : List String := t.rows.filterMap (fun r => r.journal)

/-- The non-missing `source_x` values of a table, in row order. -/
def sourceValues (t : Table) : List String := t.rows.filterMap (fun r => r.source_x)

/-- The distinct elements of `l` in first-encountered order: the key order
in which pandas `value_counts` and Python `Counter` enumerate the groups
before sorting by count.  (`List.dedup` keeps the last occurrence, so the
first-occurrence variant is its reversal sandwiched in reversals.) -/
def firstDedup {α : Type} [DecidableEq α] (l : List α) : List α :=
  l.reverse.dedup.reverse

/-- Ordering used by `value_counts` / `Counter.most_common`: sort pairs by
count, descending. -/
def countGe {α : Type} (a b : α × Nat) : Prop := b.2 ≤ a.2

instance {α : Type} : DecidableRel (countGe (α := α)) :=
  fun a b => inferInstanceAs (Decidable (b.2 ≤ a.2))

instance {α : Type} : IsTotal (α × Nat) countGe :=
  ⟨fun a b => Nat.le_total b.2 a.2⟩

instance {α : Type} : IsTrans (α × Nat) countGe :=
  ⟨fun _ _ _ h1 h2 => Nat.le_trans h2 h1⟩

/-- Model of `Series.value_counts()` (and of `Counter.most_common` before
truncation): one `(key, count)` pair per distinct value, sorted by count
descending with a stable sort, so that equal counts keep the
first-encountered key order (the contract fixed by spec §9). -/
def value_counts {α : Type} [DecidableEq α] (l : List α) : List (α × Nat) :=
  List.insertionSort countGe ((firstDedup l).map (fun x => (x, l.count x)))

/-- Model of `analyze_publications_by_year` in `cord19_analysis.py`:
`None` when the `year` column is absent, otherwise
`value_counts().sort_index()`, i.e. one pair per distinct non-missing
year, ordered by year ascending. -/
def analyze_publications_by_year (t : Table) : Option (List (Int × Nat)) :=
  if "year" ∈ t.cols then
    some ((List.insertionSort (· ≤ ·) (firstDedup (yearValues t))).map
      (fun y => (y, (yearValues t).count y)))
  else none

/-- Model of `analyze_top_journals`: `None` when the `journal` column is
absent, otherwise `value_counts().head(top_n)`. -/
def analyze_top_journals (t : Table) (top_n : Nat := 10) : Option (List (String × Nat)) :=
  if "journal" ∈ t.cols then some ((value_counts (journalValues t)).take top_n)
  else none

/-- Model of `analyze_sources`: `None` when the `source_x` column is
absent, otherwise `value_counts().head(top_n)`. -/
def analyze_sources (t : Table) (top_n : Nat := 10) : Option (List (String × Nat)) :=
  if "source_x" ∈ t.cols then some ((value_counts (sourceValues t)).take top_n)
  else none

/-- Word characters of the regex `\b` boundary (ASCII fragment relevant to
this data): letters, digits and underscore. -/
def isWordChar (c : Char) : Bool := c.isAlphanum || c = '_'

/-- Maximal runs of word characters in a character list, in order. -/
def wordRuns : List Char → List Char → List (List Char)
  | [], acc => if acc.isEmpty then [] else [acc.reverse]
  | c :: cs, acc =>
    if isWordChar c then wordRuns cs (c :: acc)
    else if acc.isEmpty then wordRuns cs []
    else acc.reverse :: wordRuns cs []

/-- Model of `re.findall(r'\b[a-zA-Z]{3,}\b', s)`: the maximal word-char
runs of `s` that consist solely of letters and have length at least 3. -/
def findTokens (s : String) : List String :=
  (wordRuns s.data []).filterMap (fun run =>
    if 3 ≤ run.length ∧ run.all Char.isAlpha then some (String.mk run) else none)

/-- The stop-word set hard-coded in `analyze_title_words` (the literal
lists `been` twice; as in the Python set this does not affect
membership). -/
def stop_words : List String :=
  ["the", "and", "for", "are", "with", "this", "that", "from", "they", "been",
   "have", "were", "said", "each", "which", "their", "time", "will", "about",
   "can", "when", "make", "like", "into", "him", "has", "two", "more", "her",
   "would", "there", "could", "way", "been", "who", "its", "now", "find",
   "long", "down", "day", "did", "get", "come", "made", "may", "part"]

/-- Model of `' '.join(cleaned_df['title'].fillna('').astype(str))`. -/
def all_titles (t : Table) : String :=
  String.intercalate " " (t.rows.map (fun r => r.title.getD ""))

/-- Model of Python `str.lower()` (character-wise lower-casing). -/
def lowerString (s : String) : String := String.mk (s.data.map Char.toLower)

/-- The tokens of all titles after lower-casing, tokenization and
stop-word removal: the list `filtered_words` of `analyze_title_words`. -/
def title_tokens (t : Table) : List String :=
  (findTokens (lowerString (all_titles t))).filter (fun w => ¬ w ∈ stop_words)

/-- Model of `analyze_title_words`: `none` when the `title` column is
absent; otherwise `Counter(filtered_words).most_common(top_n)`, except
that the subsequent `words, counts = zip(*word_freq)` raises a
`ValueError` when the frequency list is empty, modelled as
`Except.error`. -/
def analyze_title_words (t : Table) (top_n : Nat := 20) :
    Except String (Option (List (String × Nat))) :=
  if "title" ∈ t.cols then
    let word_freq := (value_counts (title_tokens t)).take top_n
    if word_freq.isEmpty then
      Except.error "not enough values to unpack (expected 2, got 0)"
    else Except.ok (some word_freq)
  else Except.ok none

instance {ε α : Type} [DecidableEq ε] [DecidableEq α] : DecidableEq (Except ε α) := fun a b =>
  match a, b with
  | .error e, .error f =>
    if h : e = f then isTrue (h ▸ rfl) else isFalse (fun hh => h (Except.error.inj hh))
  | .ok x, .ok y =>
    if h : x = y then isTrue (h ▸ rfl) else isFalse (fun hh => h (Except.ok.inj hh))
  | .error _, .ok _ => isFalse (fun hh => Except.noConfusion hh)
  | .ok _, .error _ => isFalse (fun hh => Except.noConfusion hh)

/-- Row predicate of the dashboard year filter
`(df['year'] >= lo) & (df['year'] <= hi)`: a missing year compares false
on both sides, so such rows are excluded. -/
def year_in_range (lo hi : Int) (r : Row) : Bool :=
  match r.year with
  | some y => decide (lo ≤ y) && decide (y ≤ hi)
  | none => false

/-- Model of the dashboard filter block of `streamlit_app.py` `main`: when
a `year` column exists, keep the rows whose year lies in the inclusive
slider range; otherwise the table is passed through unchanged. -/
def yearFilter (t : Table) (lo hi : Int) : Table :=
  if "year" ∈ t.cols then { t with rows := t.rows.filter (year_in_range lo hi) }
  else t

/-- Model of the download button content `filtered_df.to_csv(index=False)`
of `streamlit_app.py`: the exported table (header = its `cols` in order,
body = its `rows` in order) is the year-filtered cleaned table. -/
def filtered_download (t : Table) (lo hi : Int) : Table := yearFilter t lo hi

/-- Concrete input table realising the spec scenarios of §8: three rows,
the third with a missing title, the second with an empty abstract. -/
def sampleTable : Table :=
  { cols := ["title", "abstract", "publish_time", "journal", "source_x"],
    rows := [
      { title := some "Covid spread patterns",
        abstract := some "ten words here one two three four five six seven",
        publish_time := .raw (some "2020-03-01"), journal := some "Nature",
        source_x := some "PMC" },
      { title := some "Spread of the virus", abstract := some "",
        publish_time := .raw (some "not-a-date"), journal := some "Nature",
        source_x := some "PMC" },
      { title := none, abstract := some "n/a",
        publish_time := .raw (some "2021-07-15"), journal := some "Lancet",
        source_x := some "WHO" }] }

/-- Concrete table for the publish-time scenario of §8: only a
`publish_time` column, with one unparsable value. -/
def scenarioPT : Table :=
  { cols := ["publish_time"],
    rows := [
      { publish_time := .raw (some "2020-03-01") },
      { publish_time := .raw (some "not-a-date") },
      { publish_time := .raw (some "2021-07-15") }] }

/-- Concrete cleaned table whose single title consists only of stop words,
so that no token survives filtering. -/
def scenarioStop : Table :=
  clean_data { cols := ["title"], rows := [{ title := some "The And!" }] }

/-- Concrete table for the §8 top-journals scenario: journals
Nature, Nature, Lancet, Cell. -/
def scenarioJournals : Table :=
  { cols := ["journal"],
    rows := [
      { journal := some "Nature" }, { journal := some "Nature" },
      { journal := some "Lancet" }, { journal := some "Cell" }] }

/-- Concrete table for the §8 title-word-frequency scenario. -/
def scenarioTitles : Table :=
  { cols := ["title"],
    rows := [
      { title := some "The Virus Spreads" },
      { title := some "Virus Mutation Spreads Fast" }] }

/-! Helper lemmas. -/

lemma table_eq {u v : Table} (h1 : u.cols = v.cols) (h2 : u.rows = v.rows) : u = v := by
  cases u; cases v; cases h1; cases h2; rfl

lemma map_eq_self_of {α : Type} {l : List α} {f : α → α} (h : ∀ a ∈ l, f a = a) :
    l.map f = l := by
  induction l with
  | nil => rfl
  | cons a l ih =>
    simp only [List.map_cons, h a (List.mem_cons_self a l)]
    rw [ih (fun b hb => h b (List.mem_cons_of_mem a hb))]

lemma mem_addCol {cols : List String} {c a : String} :
    a ∈ addCol cols c ↔ a ∈ cols ∨ a = c := by
  by_cases h : c ∈ cols
  · simp only [addCol, if_pos h]
    exact ⟨Or.inl, fun hh => hh.elim id (fun e => e ▸ h)⟩
  · simp [addCol, if_neg h]

lemma addCol_of_mem {cols : List String} {c : String} (h : c ∈ cols) :
    addCol cols c = cols := if_pos h

lemma enrichPT_title (r : Row) : (enrichPT r).title = r.title := rfl

lemma enrichAbs_title (r : Row) : (enrichAbs r).title = r.title := rfl

lemma enrichPT_of_fixed {r : Row} {d : Option Date} (h1 : r.publish_time = .parsed d)
    (h2 : r.year = d.map Date.year) : enrichPT r = r := by
  cases r
  simp only [enrichPT]
  simp_all [toDatetime]

lemma enrichAbs_of_fixed {r : Row}
    (h : r.abstract_word_count = some (wordCount (r.abstract.getD ""))) :
    enrichAbs r = r := by
  cases r
  simp only [enrichAbs]
  simp_all

lemma cleanRow_title (hpt hab : Prop) [Decidable hpt] [Decidable hab] (r : Row) :
    (cleanRow hpt hab r).title = r.title := by
  simp only [cleanRow]
  split <;> split <;> rfl

lemma cleanRow_abstract (hpt hab : Prop) [Decidable hpt] [Decidable hab] (r : Row) :
    (cleanRow hpt hab r).abstract = r.abstract := by
  simp only [cleanRow]
  split <;> split <;> rfl

lemma cleanRow_publish (hpt hab : Prop) [Decidable hpt] [Decidable hab] (r : Row)
    (h : hpt) : (cleanRow hpt hab r).publish_time = .parsed (toDatetime r.publish_time) := by
  simp only [cleanRow, if_pos h]
  split <;> rfl

lemma cleanRow_year (hpt hab : Prop) [Decidable hpt] [Decidable hab] (r : Row)
    (h : hpt) : (cleanRow hpt hab r).year = (toDatetime r.publish_time).map Date.year := by
  simp only [cleanRow, if_pos h]
  split <;> rfl

lemma cleanRow_awc (hpt hab : Prop) [Decidable hpt] [Decidable hab] (r : Row)
    (h : hab) :
    (cleanRow hpt hab r).abstract_word_count = some (wordCount (r.abstract.getD "")) := by
  simp only [cleanRow, if_pos h]
  split <;> rfl

lemma cleanRow_tt {hpt hab : Prop} [Decidable hpt] [Decidable hab] (h1 : hpt) (h2 : hab) :
    cleanRow hpt hab = fun r => enrichAbs (enrichPT r) := by
  funext r
  simp [cleanRow, h1, h2]

lemma cleanRow_tf {hpt hab : Prop} [Decidable hpt] [Decidable hab] (h1 : hpt) (h2 : ¬hab) :
    cleanRow hpt hab = enrichPT := by
  funext r
  simp [cleanRow, h1, h2]

lemma cleanRow_ft {hpt hab : Prop} [Decidable hpt] [Decidable hab] (h1 : ¬hpt) (h2 : hab) :
    cleanRow hpt hab = enrichAbs := by
  funext r
  simp [cleanRow, h1, h2]

lemma cleanRow_ff {hpt hab : Prop} [Decidable hpt] [Decidable hab] (h1 : ¬hpt) (h2 : ¬hab) :
    cleanRow hpt hab = id := by
  funext r
  simp [cleanRow, h1, h2]

lemma step1_cols (t : Table) :
    (step1 t).cols = if "publish_time" ∈ t.cols then addCol t.cols "year" else t.cols := by
  simp only [step1]
  split <;> rfl

lemma step2_cols (t : Table) :
    (step2 t).cols =
      if "abstract" ∈ t.cols then addCol t.cols "abstract_word_count" else t.cols := by
  simp only [step2]
  split <;> rfl

lemma step3_cols (t : Table) : (step3 t).cols = t.cols := by
  simp only [step3]
  split <;> rfl

lemma mem_clean_cols (t : Table) (a : String) :
    a ∈ (clean_data t).cols ↔
      a ∈ t.cols ∨ (a = "year" ∧ "publish_time" ∈ t.cols) ∨
        (a = "abstract_word_count" ∧ "abstract" ∈ t.cols) := by
  by_cases hp : "publish_time" ∈ t.cols <;> by_cases ha : "abstract" ∈ t.cols <;>
    · simp_all [clean_data, step3_cols, step2_cols, step1_cols, mem_addCol]
      try tauto

lemma clean_rows (t : Table) :
    (clean_data t).rows =
      if "title" ∈ t.cols then
        (t.rows.map (cleanRow ("publish_time" ∈ t.cols) ("abstract" ∈ t.cols))).filter
          (fun r => r.title.isSome)
      else t.rows.map (cleanRow ("publish_time" ∈ t.cols) ("abstract" ∈ t.cols)) := by
  by_cases hp : "publish_time" ∈ t.cols <;> by_cases ha : "abstract" ∈ t.cols <;>
    by_cases ht : "title" ∈ t.cols <;>
      simp_all [clean_data, step1, step2, step3, mem_addCol, List.map_map,
        Function.comp_def, cleanRow_tt, cleanRow_tf, cleanRow_ft, cleanRow_ff]

lemma mem_clean_of (t : Table) {a : String} (h : a ∈ t.cols) : a ∈ (clean_data t).cols :=
  (mem_clean_cols t a).mpr (Or.inl h)

lemma clean_rows_mem {t : Table} {r : Row} (hr : r ∈ (clean_data t).rows) :
    ∃ r₀ ∈ t.rows,
      r = cleanRow ("publish_time" ∈ t.cols) ("abstract" ∈ t.cols) r₀ := by
  rw [clean_rows] at hr
  by_cases ht : "title" ∈ t.cols
  · rw [if_pos ht] at hr
    obtain ⟨hr', _⟩ := List.mem_filter.mp hr
    obtain ⟨r₀, h₀, rfl⟩ := List.mem_map.mp hr'
    exact ⟨r₀, h₀, rfl⟩
  · rw [if_neg ht] at hr
    obtain ⟨r₀, h₀, rfl⟩ := List.mem_map.mp hr
    exact ⟨r₀, h₀, rfl⟩

lemma clean_rows_pt_shape (t : Table) (hp : "publish_time" ∈ t.cols) :
    ∀ r ∈ (clean_data t).rows,
      ∃ d, r.publish_time = PTime.parsed d ∧ r.year = d.map Date.year := by
  intro r hr
  obtain ⟨r₀, _, rfl⟩ := clean_rows_mem hr
  exact ⟨toDatetime r₀.publish_time, cleanRow_publish _ _ r₀ hp, cleanRow_year _ _ r₀ hp⟩

lemma clean_rows_awc_shape (t : Table) (ha : "abstract" ∈ t.cols) :
    ∀ r ∈ (clean_data t).rows,
      r.abstract_word_count = some (wordCount (r.abstract.getD "")) := by
  intro r hr
  obtain ⟨r₀, _, rfl⟩ := clean_rows_mem hr
  rw [cleanRow_awc _ _ r₀ ha, cleanRow_abstract]

lemma clean_rows_title_shape (t : Table) (ht : "title" ∈ t.cols) :
    ∀ r ∈ (clean_data t).rows, r.title.isSome := by
  intro r hr
  rw [clean_rows, if_pos ht] at hr
  exact (List.mem_filter.mp hr).2

lemma step1_clean (t : Table) : step1 (clean_data t) = clean_data t := by
  by_cases hp : "publish_time" ∈ t.cols
  · have hp' : "publish_time" ∈ (clean_data t).cols := mem_clean_of t hp
    have hy : "year" ∈ (clean_data t).cols := (mem_clean_cols t _).mpr (Or.inr (Or.inl ⟨rfl, hp⟩))
    simp only [step1, if_pos hp']
    refine table_eq (addCol_of_mem hy) (map_eq_self_of ?_)
    intro r hr
    obtain ⟨d, h1, h2⟩ := clean_rows_pt_shape t hp r hr
    exact enrichPT_of_fixed h1 h2
  · have hp' : "publish_time" ∉ (clean_data t).cols := by
      rw [mem_clean_cols]
      simp [hp]
    simp only [step1, if_neg hp']

lemma step2_clean (t : Table) : step2 (clean_data t) = clean_data t := by
  by_cases ha : "abstract" ∈ t.cols
  · have ha' : "abstract" ∈ (clean_data t).cols := mem_clean_of t ha
    have hw : "abstract_word_count" ∈ (clean_data t).cols :=
      (mem_clean_cols t _).mpr (Or.inr (Or.inr ⟨rfl, ha⟩))
    simp only [step2, if_pos ha']
    refine table_eq (addCol_of_mem hw) (map_eq_self_of ?_)
    intro r hr
    exact enrichAbs_of_fixed (clean_rows_awc_shape t ha r hr)
  · have ha' : "abstract" ∉ (clean_data t).cols := by
      rw [mem_clean_cols]
      simp [ha]
    simp only [step2, if_neg ha']

lemma step3_clean (t : Table) : step3 (clean_data t) = clean_data t := by
  by_cases ht : "title" ∈ t.cols
  · have ht' : "title" ∈ (clean_data t).cols := mem_clean_of t ht
    simp only [step3, if_pos ht']
    refine table_eq rfl ?_
    exact List.filter_eq_self.mpr (clean_rows_title_shape t ht)
  · have ht' : "title" ∉ (clean_data t).cols := by
      rw [mem_clean_cols]
      simp [ht]
    simp only [step3, if_neg ht']

lemma splitWsAux_ne_nil (cs : List Char) (acc : List Char) (h : ¬acc.isEmpty) :
    splitWsAux cs acc ≠ [] := by
  induction cs generalizing acc with
  | nil => simp [splitWsAux, h]
  | cons c cs ih =>
    simp only [splitWsAux]
    by_cases hw : c.isWhitespace
    · simp only [if_pos hw, if_neg h]
      exact List.cons_ne_nil _ _
    · rw [if_neg hw]
      exact ih (c :: acc) (by simp)

lemma splitWsAux_nil_iff (cs : List Char) :
    splitWsAux cs [] = [] ↔ cs.all Char.isWhitespace := by
  induction cs with
  | nil => simp [splitWsAux]
  | cons c cs ih =>
    simp only [splitWsAux, List.all_cons]
    by_cases hw : c.isWhitespace
    · simpa [hw] using ih
    · simp only [if_neg hw, hw, Bool.false_and]
      exact ⟨fun h => absurd h (splitWsAux_ne_nil cs [c] (by simp)), fun h => by cases h⟩

lemma wordCount_eq_zero_iff (s : String) :
    wordCount s = 0 ↔ s.data.all Char.isWhitespace := by
  rw [wordCount, pySplit, List.length_eq_zero]
  exact splitWsAux_nil_iff s.data

lemma filter_map_eq {α β : Type} (f : α → β) (p : β → Bool) (l : List α) :
    (l.map f).filter p = (l.filter (fun a => p (f a))).map f := by
  induction l with
  | nil => rfl
  | cons a l ih =>
    by_cases h : p (f a) <;> simp [h, ih]

lemma map_congr_on {α β : Type} {l : List α} {f g : α → β} (h : ∀ a ∈ l, f a = g a) :
    l.map f = l.map g := by
  induction l with
  | nil => rfl
  | cons a l ih =>
    simp only [List.map_cons, h a (List.mem_cons_self a l)]
    rw [ih (fun b hb => h b (List.mem_cons_of_mem a hb))]

lemma mem_firstDedup {α : Type} [DecidableEq α] {a : α} {l : List α} :
    a ∈ firstDedup l ↔ a ∈ l := by
  simp [firstDedup, List.mem_dedup]

lemma nodup_firstDedup {α : Type} [DecidableEq α] (l : List α) : (firstDedup l).Nodup :=
  List.nodup_reverse.mpr (List.nodup_dedup _)

lemma firstDedup_perm_dedup {α : Type} [DecidableEq α] (l : List α) :
    (firstDedup l).Perm l.dedup :=
  (List.reverse_perm _).trans ((List.reverse_perm l).dedup)

lemma sum_counts_firstDedup {α : Type} [DecidableEq α] (l : List α) :
    ((firstDedup l).map (fun x => l.count x)).sum = l.length := by
  rw [((firstDedup_perm_dedup l).map (fun x => l.count x)).sum_eq]
  exact List.sum_map_count_dedup_eq_length l

lemma value_counts_perm {α : Type} [DecidableEq α] (l : List α) :
    (value_counts l).Perm ((firstDedup l).map (fun x => (x, l.count x))) :=
  List.perm_insertionSort _ _

lemma value_counts_sorted {α : Type} [DecidableEq α] (l : List α) :
    (value_counts l).Pairwise countGe :=
  List.sorted_insertionSort countGe _

lemma mem_value_counts_of {α : Type} [DecidableEq α] {l : List α} {a : α} (h : a ∈ l) :
    (a, l.count a) ∈ value_counts l := by
  rw [(value_counts_perm l).mem_iff]
  exact List.mem_map.mpr ⟨a, mem_firstDedup.mpr h, rfl⟩

lemma value_counts_count {α : Type} [DecidableEq α] {l : List α} {p : α × Nat}
    (h : p ∈ value_counts l) : p.2 = l.count p.1 := by
  rw [(value_counts_perm l).mem_iff] at h
  obtain ⟨x, _, rfl⟩ := List.mem_map.mp h
  rfl

lemma value_counts_key_mem {α : Type} [DecidableEq α] {l : List α} {p : α × Nat}
    (h : p ∈ value_counts l) : p.1 ∈ l := by
  rw [(value_counts_perm l).mem_iff] at h
  obtain ⟨x, hx, rfl⟩ := List.mem_map.mp h
  exact mem_firstDedup.mp hx

lemma filter_snd_orderedInsert {α : Type} (c : Nat) (a : α × Nat) (s : List (α × Nat)) :
    (List.orderedInsert countGe a s).filter (fun p => p.2 = c) =
      if a.2 = c then a :: s.filter (fun p => p.2 = c)
      else s.filter (fun p => p.2 = c) := by
  induction s with
  | nil =>
    by_cases hac : a.2 = c <;> simp [List.orderedInsert, hac]
  | cons b s ih =>
    simp only [List.orderedInsert]
    by_cases hab : countGe a b
    · rw [if_pos hab]
      by_cases hac : a.2 = c <;> simp [hac, List.filter_cons]
    · rw [if_neg hab]
      have hlt : a.2 < b.2 := Nat.lt_of_not_le hab
      by_cases hac : a.2 = c
      · have hbc : ¬(b.2 = c) := by omega
        simp [List.filter_cons, hbc, ih, hac]
      · simp only [List.filter_cons, ih, if_neg hac]

lemma filter_snd_insertionSort {α : Type} (c : Nat) (s : List (α × Nat)) :
    (List.insertionSort countGe s).filter (fun p => p.2 = c) =
      s.filter (fun p => p.2 = c) := by
  induction s with
  | nil => rfl
  | cons a s ih =>
    simp only [List.insertionSort]
    rw [filter_snd_orderedInsert]
    by_cases hac : a.2 = c <;> simp [hac, ih, List.filter_cons]

lemma vc_take_length {α : Type} [DecidableEq α] (l : List α) (n : Nat) :
    ((value_counts l).take n).length ≤ n := List.length_take_le n _

lemma vc_take_sorted {α : Type} [DecidableEq α] (l : List α) (n : Nat) :
    ((value_counts l).take n).Pairwise countGe :=
  List.Pairwise.sublist (List.take_sublist n _) (value_counts_sorted l)

lemma vc_take_counts {α : Type} [DecidableEq α] {l : List α} {n : Nat} {p : α × Nat}
    (h : p ∈ (value_counts l).take n) : p.2 = l.count p.1 ∧ p.1 ∈ l :=
  ⟨value_counts_count (List.mem_of_mem_take h),
   value_counts_key_mem (List.mem_of_mem_take h)⟩

lemma vc_take_top {α : Type} [DecidableEq α] {l : List α} {n : Nat} {p : α × Nat}
    (hp : p ∈ (value_counts l).take n) {j : α} (hj : j ∈ l)
    (hnot : j ∉ ((value_counts l).take n).map Prod.fst) : l.count j ≤ p.2 := by
  have hm : (j, l.count j) ∈ value_counts l := mem_value_counts_of hj
  rw [← List.take_append_drop n (value_counts l), List.mem_append] at hm
  cases hm with
  | inl h => exact absurd (List.mem_map.mpr ⟨_, h, rfl⟩) hnot
  | inr h =>
    have hsp : (value_counts l).Pairwise countGe := value_counts_sorted l
    rw [← List.take_append_drop n (value_counts l), List.pairwise_append] at hsp
    exact hsp.2.2 p hp (j, l.count j) h

lemma vc_take_stable {α : Type} [DecidableEq α] (l : List α) (n : Nat) (c : Nat) :
    ∃ rest,
      ((firstDedup l).filter (fun x => l.count x = c)).map (fun x => (x, c)) =
        ((value_counts l).take n).filter (fun p => p.2 = c) ++ rest := by
  refine ⟨((value_counts l).drop n).filter (fun p => p.2 = c), ?_⟩
  rw [← List.filter_append, List.take_append_drop]
  have h1 : (value_counts l).filter (fun p => p.2 = c) =
      ((firstDedup l).map (fun x => (x, l.count x))).filter (fun p => p.2 = c) :=
    filter_snd_insertionSort c _
  rw [h1, filter_map_eq]
  exact (map_congr_on (fun x hx => by
    have : l.count x = c := by simpa using (List.mem_filter.mp hx).2
    rw [this])).symm

lemma findTokens_wf (s : String) :
    ∀ w ∈ findTokens s, 3 ≤ w.data.length ∧ w.data.all Char.isAlpha := by
  intro w hw
  simp only [findTokens, List.mem_filterMap] at hw
  obtain ⟨run, _, hrun⟩ := hw
  split at hrun
  · obtain rfl := Option.some.inj hrun
    assumption
  · exact Option.noConfusion hrun

lemma addCol_of_not_mem {cols : List String} {c : String} (h : c ∉ cols) :
    addCol cols c = cols ++ [c] := if_neg h

/-! Theorems for the claims. -/

/-- C1: the Cleaner is idempotent — cleaning an already-cleaned table is a
no-op, so the derived `year` and `abstract_word_count` columns re-derive
to the same values. -/
theorem c1_cleaner_idempotent (t : Table) :
    clean_data (clean_data t) = clean_data t := by
  show step3 (step2 (step1 (clean_data t))) = clean_data t
  rw [step1_clean, step2_clean, step3_clean]

/-- C1 witness: idempotence evaluated on the concrete sample table. -/
theorem c1_cleaner_idempotent_witness :
    clean_data (clean_data sampleTable) = clean_data sampleTable :=
  c1_cleaner_idempotent sampleTable

/-- C3: when the input has a `title` column, the cleaned table keeps
exactly the rows with a non-missing title (in order, each transformed by
the derivation step, which preserves the title), and every cleaned row
has a non-missing title. -/
theorem c3_missing_titles_dropped (t : Table) (ht : "title" ∈ t.cols) :
    (∀ r ∈ (clean_data t).rows, r.title.isSome) ∧
    (clean_data t).rows =
      (t.rows.filter (fun r => r.title.isSome)).map
        (cleanRow ("publish_time" ∈ t.cols) ("abstract" ∈ t.cols)) ∧
    (∀ r : Row, (cleanRow ("publish_time" ∈ t.cols) ("abstract" ∈ t.cols) r).title =
      r.title) := by
  refine ⟨clean_rows_title_shape t ht, ?_, fun r => cleanRow_title _ _ r⟩
  rw [clean_rows, if_pos ht, filter_map_eq]
  congr 1
  exact List.filter_congr (fun r _ => by rw [cleanRow_title])

/-- C3 witness: the scenario table of §8 — three rows, the third with a
missing title, is cleaned to two rows. -/
theorem c3_missing_titles_dropped_witness :
    "title" ∈ sampleTable.cols ∧
      ((∀ r ∈ (clean_data sampleTable).rows, r.title.isSome) ∧
        (clean_data sampleTable).rows =
          (sampleTable.rows.filter (fun r => r.title.isSome)).map
            (cleanRow ("publish_time" ∈ sampleTable.cols) ("abstract" ∈ sampleTable.cols)) ∧
        (∀ r : Row,
          (cleanRow ("publish_time" ∈ sampleTable.cols) ("abstract" ∈ sampleTable.cols)
            r).title = r.title)) ∧
      (clean_data sampleTable).rows.length = 2 :=
  ⟨by decide, c3_missing_titles_dropped sampleTable (by decide), by decide⟩

/-- C4: after cleaning a table with an `abstract` column, every row's
`abstract_word_count` is the (naturally non-negative) number of
whitespace-separated tokens of its abstract, and it is 0 exactly when the
abstract is missing or empty or whitespace-only. -/
theorem c4_abstract_word_count (t : Table) (ha : "abstract" ∈ t.cols) :
    ∀ r ∈ (clean_data t).rows,
      r.abstract_word_count = some (wordCount (r.abstract.getD "")) ∧
      (r.abstract_word_count = some 0 ↔ (r.abstract.getD "").data.all Char.isWhitespace) := by
  intro r hr
  have h := clean_rows_awc_shape t ha r hr
  refine ⟨h, ?_⟩
  rw [h]
  simp only [Option.some.injEq]
  exact wordCount_eq_zero_iff _

/-- C4 witness: on the sample table the first abstract has 10 tokens and
the second, empty, has 0. -/
theorem c4_abstract_word_count_witness :
    "abstract" ∈ sampleTable.cols ∧
      (∀ r ∈ (clean_data sampleTable).rows,
        r.abstract_word_count = some (wordCount (r.abstract.getD "")) ∧
        (r.abstract_word_count = some 0 ↔
          (r.abstract.getD "").data.all Char.isWhitespace)) ∧
      (clean_data sampleTable).rows.map (fun r => r.abstract_word_count) =
        [some 10, some 0] :=
  ⟨by decide, c4_abstract_word_count sampleTable (by decide), by decide⟩

/-- C8: cleaning never fails on a bad `publish_time`: every cleaned row
holds a (possibly missing) parsed date whose `year` it carries, and on
the §8 scenario the unparsable value gives a missing year while the
parsable ones give their calendar years, with
publications-by-year = {2020: 1, 2021: 1}. -/
theorem c8_unparsable_dates_nonfatal :
    (∀ t : Table, "publish_time" ∈ t.cols →
      ∀ r ∈ (clean_data t).rows,
        ∃ d, r.publish_time = PTime.parsed d ∧ r.year = d.map Date.year) ∧
    (clean_data scenarioPT).rows.map (fun r => r.year) = [some 2020, none, some 2021] ∧
    analyze_publications_by_year (clean_data scenarioPT) = some [(2020, 1), (2021, 1)] :=
  ⟨fun t hp => clean_rows_pt_shape t hp, by decide, by decide⟩

/-- C8 witness: the general part of C8 instantiated on the scenario
table, with its hypothesis discharged by evaluation. -/
theorem c8_unparsable_dates_nonfatal_witness :
    "publish_time" ∈ scenarioPT.cols ∧
      (∀ r ∈ (clean_data scenarioPT).rows,
        ∃ d, r.publish_time = PTime.parsed d ∧ r.year = d.map Date.year) :=
  ⟨by decide, c8_unparsable_dates_nonfatal.1 scenarioPT (by decide)⟩

/-- C2: each of the four aggregations degrades gracefully when its source
column is absent: it returns its empty result (`None` for the three
`value_counts*` based ones, `Except.ok none` for the title analysis, which
additionally never raises on this path) instead of an error. -/
theorem c2_absent_column_empty_result (t : Table) :
    ("year" ∉ t.cols → analyze_publications_by_year t = none) ∧
    ("journal" ∉ t.cols → ∀ n, analyze_top_journals t n = none) ∧
    ("title" ∉ t.cols → ∀ n, analyze_title_words t n = Except.ok none) ∧
    ("source_x" ∉ t.cols → ∀ n, analyze_sources t n = none) := by
  refine ⟨fun h => ?_, fun h n => ?_, fun h n => ?_, fun h n => ?_⟩ <;>
    simp [analyze_publications_by_year, analyze_top_journals, analyze_title_words,
      analyze_sources, h]

/-- C2 witness: a table with no columns at all makes all four aggregations
return their empty results. -/
theorem c2_absent_column_empty_result_witness :
    analyze_publications_by_year (Table.mk [] []) = none ∧
      analyze_top_journals (Table.mk [] []) 10 = none ∧
      analyze_title_words (Table.mk [] []) 20 = Except.ok none ∧
      analyze_sources (Table.mk [] []) 10 = none :=
  ⟨(c2_absent_column_empty_result _).1 (by decide),
   (c2_absent_column_empty_result _).2.1 (by decide) 10,
   (c2_absent_column_empty_result _).2.2.1 (by decide) 20,
   (c2_absent_column_empty_result _).2.2.2 (by decide) 10⟩

/-- C5: with a `year` column present, publications-by-year returns a
frequency list sorted strictly ascending by year, whose keys are exactly
the non-missing years, whose counts are the per-year multiplicities, and
whose counts sum to the number of rows with a non-missing year. -/
theorem c5_publications_by_year (t : Table) (hy : "year" ∈ t.cols) :
    ∃ l, analyze_publications_by_year t = some l ∧
      l.Pairwise (fun a b => a.1 < b.1) ∧
      (∀ p ∈ l, p.2 = (yearValues t).count p.1 ∧ p.1 ∈ yearValues t) ∧
      (∀ y ∈ yearValues t, y ∈ l.map Prod.fst) ∧
      (l.map Prod.snd).sum = (yearValues t).length := by
  refine ⟨(List.insertionSort (· ≤ ·) (firstDedup (yearValues t))).map
    (fun y => (y, (yearValues t).count y)), ?_, ?_, ?_, ?_, ?_⟩
  · simp only [analyze_publications_by_year, if_pos hy]
  · have h1 : (List.insertionSort (· ≤ ·) (firstDedup (yearValues t))).Sorted (· ≤ ·) :=
      List.sorted_insertionSort _ _
    have h2 : (List.insertionSort (· ≤ ·) (firstDedup (yearValues t))).Nodup :=
      ((List.perm_insertionSort _ _).nodup_iff).mpr (nodup_firstDedup _)
    have h3 : (List.insertionSort (· ≤ ·) (firstDedup (yearValues t))).Pairwise (· < ·) :=
      (List.Pairwise.and h1 h2).imp (fun h => lt_of_le_of_ne h.1 h.2)
    rw [List.pairwise_map]
    exact h3
  · intro p hp
    obtain ⟨y, hy', rfl⟩ := List.mem_map.mp hp
    exact ⟨rfl, mem_firstDedup.mp ((List.perm_insertionSort _ _).mem_iff.mp hy')⟩
  · intro y hy'
    exact List.mem_map.mpr
      ⟨(y, (yearValues t).count y),
       List.mem_map.mpr
         ⟨y, (List.perm_insertionSort _ _).mem_iff.mpr (mem_firstDedup.mpr hy'), rfl⟩, rfl⟩
  · rw [List.map_map]
    rw [show (Prod.snd ∘ fun y => (y, (yearValues t).count y)) =
      fun y => (yearValues t).count y from rfl]
    rw [((List.perm_insertionSort _ _).map (fun y => (yearValues t).count y)).sum_eq]
    exact sum_counts_firstDedup _

/-- C5 witness: the theorem instantiated on the cleaned publish-time
scenario table, whose year histogram is {2020: 1, 2021: 1}. -/
theorem c5_publications_by_year_witness :
    "year" ∈ (clean_data scenarioPT).cols ∧
      (∃ l, analyze_publications_by_year (clean_data scenarioPT) = some l ∧
        l.Pairwise (fun a b => a.1 < b.1) ∧
        (∀ p ∈ l, p.2 = (yearValues (clean_data scenarioPT)).count p.1 ∧
          p.1 ∈ yearValues (clean_data scenarioPT)) ∧
        (∀ y ∈ yearValues (clean_data scenarioPT), y ∈ l.map Prod.fst) ∧
        (l.map Prod.snd).sum = (yearValues (clean_data scenarioPT)).length) :=
  ⟨by decide, c5_publications_by_year (clean_data scenarioPT) (by decide)⟩

/-- C6: with a `journal` column present, top-journals(n) returns at most n
pairs, sorted by count non-increasing, each pair carrying a journal of the
table with its exact row count; every journal left out has a count at most
any returned count; pairs of equal count list their journals in
first-encountered order; and the argument defaults to 10. -/
theorem c6_top_journals (t : Table) (n : Nat) (hj : "journal" ∈ t.cols) :
    ∃ l, analyze_top_journals t n = some l ∧
      analyze_top_journals t = analyze_top_journals t 10 ∧
      l.length ≤ n ∧
      l.Pairwise (fun a b => b.2 ≤ a.2) ∧
      (∀ p ∈ l, p.2 = (journalValues t).count p.1 ∧ p.1 ∈ journalValues t) ∧
      (∀ p ∈ l, ∀ j ∈ journalValues t, j ∉ l.map Prod.fst →
        (journalValues t).count j ≤ p.2) ∧
      (∀ c, ∃ rest,
        ((firstDedup (journalValues t)).filter
          (fun x => (journalValues t).count x = c)).map (fun x => (x, c)) =
          l.filter (fun p => p.2 = c) ++ rest) := by
  refine ⟨(value_counts (journalValues t)).take n, ?_, rfl, vc_take_length _ n,
    vc_take_sorted _ n, fun p hp => vc_take_counts hp,
    fun p hp j hj' hn => vc_take_top hp hj' hn, fun c => vc_take_stable _ n c⟩
  simp only [analyze_top_journals, if_pos hj]

/-- C6 witness: the theorem instantiated on the §8 journals scenario,
where top-journals(2) is [(Nature, 2), (Lancet, 1)] — Cell excluded. -/
theorem c6_top_journals_witness :
    "journal" ∈ scenarioJournals.cols ∧
      (∃ l, analyze_top_journals scenarioJournals 2 = some l ∧
        analyze_top_journals scenarioJournals = analyze_top_journals scenarioJournals 10 ∧
        l.length ≤ 2 ∧
        l.Pairwise (fun a b => b.2 ≤ a.2) ∧
        (∀ p ∈ l, p.2 = (journalValues scenarioJournals).count p.1 ∧
          p.1 ∈ journalValues scenarioJournals) ∧
        (∀ p ∈ l, ∀ j ∈ journalValues scenarioJournals, j ∉ l.map Prod.fst →
          (journalValues scenarioJournals).count j ≤ p.2) ∧
        (∀ c, ∃ rest,
          ((firstDedup (journalValues scenarioJournals)).filter
            (fun x => (journalValues scenarioJournals).count x = c)).map (fun x => (x, c)) =
            l.filter (fun p => p.2 = c) ++ rest)) ∧
      analyze_top_journals scenarioJournals 2 = some [("Nature", 2), ("Lancet", 1)] :=
  ⟨by decide, c6_top_journals scenarioJournals 2 (by decide), by decide⟩

/-- C7: with a `title` column present, every returned frequency pair of
the title-word analysis carries a token of the lower-cased title text that
is at least 3 letters long, purely alphabetic and not a stop word, with
its exact occurrence count; the list is sorted by count non-increasing,
has at most n entries, and no excluded surviving token has a higher count;
moreover tokenizing "The." yields exactly the stop word "the", which is
excluded. -/
theorem c7_title_word_tokens (t : Table) (n : Nat) (ht : "title" ∈ t.cols) :
    (∀ l, analyze_title_words t n = Except.ok (some l) →
      (∀ p ∈ l, p.1 ∈ findTokens (lowerString (all_titles t)) ∧ ¬ p.1 ∈ stop_words ∧
        3 ≤ p.1.data.length ∧ p.1.data.all Char.isAlpha ∧
        p.2 = (title_tokens t).count p.1) ∧
      l.Pairwise (fun a b => b.2 ≤ a.2) ∧ l.length ≤ n ∧
      (∀ p ∈ l, ∀ w ∈ title_tokens t, w ∉ l.map Prod.fst →
        (title_tokens t).count w ≤ p.2)) ∧
    findTokens (lowerString "The.") = ["the"] ∧ "the" ∈ stop_words := by
  refine ⟨?_, by decide, by decide⟩
  intro l hl
  have hl' : l = (value_counts (title_tokens t)).take n := by
    simp only [analyze_title_words, if_pos ht] at hl
    split at hl
    · exact Except.noConfusion hl
    · exact (Option.some.inj (Except.ok.inj hl)).symm
  subst hl'
  refine ⟨?_, vc_take_sorted _ n, vc_take_length _ n,
    fun p hp w hw hn => vc_take_top hp hw hn⟩
  intro p hp
  obtain ⟨hcount, hmem⟩ := vc_take_counts hp
  have hm2 := hmem
  simp only [title_tokens, List.mem_filter, decide_eq_true_eq] at hm2
  obtain ⟨hf, hs⟩ := hm2
  have hwf := findTokens_wf _ p.1 hf
  exact ⟨hf, hs, hwf.1, hwf.2, hcount⟩

/-- C7 witness: the theorem instantiated on the §8 title scenario, where
the top-3 word frequency is [(virus, 2), (spreads, 2), (mutation, 1)]. -/
theorem c7_title_word_tokens_witness :
    "title" ∈ scenarioTitles.cols ∧
      ((∀ l, analyze_title_words scenarioTitles 3 = Except.ok (some l) →
        (∀ p ∈ l, p.1 ∈ findTokens (lowerString (all_titles scenarioTitles)) ∧
          ¬ p.1 ∈ stop_words ∧ 3 ≤ p.1.data.length ∧ p.1.data.all Char.isAlpha ∧
          p.2 = (title_tokens scenarioTitles).count p.1) ∧
        l.Pairwise (fun a b => b.2 ≤ a.2) ∧ l.length ≤ 3 ∧
        (∀ p ∈ l, ∀ w ∈ title_tokens scenarioTitles, w ∉ l.map Prod.fst →
          (title_tokens scenarioTitles).count w ≤ p.2)) ∧
        findTokens (lowerString "The.") = ["the"] ∧ "the" ∈ stop_words) ∧
      analyze_title_words scenarioTitles 3 =
        Except.ok (some [("virus", 2), ("spreads", 2), ("mutation", 1)]) :=
  ⟨by decide, c7_title_word_tokens scenarioTitles 3 (by decide), by decide⟩

/-- C9 counterexample: the downloadable export does not reproduce exactly
the input's column set — on the sample table the cleaned (and filtered)
table carries the appended derived columns `year` and
`abstract_word_count`, so its columns differ from the input's. -/
theorem c9_export_counterexample :
    (filtered_download (clean_data sampleTable) 2019 2022).cols ≠ sampleTable.cols := by
  decide

/-- C9 amended: the export reproduces the input's columns in their
original order followed by the derived columns `year` and
`abstract_word_count` (here for inputs that carry `publish_time` and
`abstract` and do not already carry the derived names), and its rows are
exactly the cleaned rows whose year lies in the active inclusive
year-range filter. -/
theorem c9_export_amended (t : Table) (lo hi : Int)
    (hp : "publish_time" ∈ t.cols) (ha : "abstract" ∈ t.cols)
    (hy : "year" ∉ t.cols) (hw : "abstract_word_count" ∉ t.cols) :
    (filtered_download (clean_data t) lo hi).cols =
      t.cols ++ ["year", "abstract_word_count"] ∧
    (filtered_download (clean_data t) lo hi).rows =
      (clean_data t).rows.filter (year_in_range lo hi) := by
  have hy' : "year" ∈ (clean_data t).cols :=
    (mem_clean_cols t _).mpr (Or.inr (Or.inl ⟨rfl, hp⟩))
  constructor
  · simp only [filtered_download, yearFilter, if_pos hy']
    show (step3 (step2 (step1 t))).cols = _
    rw [step3_cols, step2_cols, step1_cols, if_pos hp, addCol_of_not_mem hy]
    have ha2 : "abstract" ∈ t.cols ++ ["year"] := List.mem_append.mpr (Or.inl ha)
    have hw2 : "abstract_word_count" ∉ t.cols ++ ["year"] := by
      simp [hw]
    rw [if_pos ha2, addCol_of_not_mem hw2, List.append_assoc]
    rfl
  · simp only [filtered_download, yearFilter, if_pos hy']

/-- C9 witness for the amended claim: evaluated on the sample table with
the year range 2019–2022. -/
theorem c9_export_amended_witness :
    "publish_time" ∈ sampleTable.cols ∧ "abstract" ∈ sampleTable.cols ∧
      "year" ∉ sampleTable.cols ∧ "abstract_word_count" ∉ sampleTable.cols ∧
      ((filtered_download (clean_data sampleTable) 2019 2022).cols =
        sampleTable.cols ++ ["year", "abstract_word_count"] ∧
      (filtered_download (clean_data sampleTable) 2019 2022).rows =
        (clean_data sampleTable).rows.filter (year_in_range 2019 2022)) :=
  ⟨by decide, by decide, by decide, by decide,
   c9_export_amended sampleTable 2019 2022 (by decide) (by decide) (by decide) (by decide)⟩

/-- C10: on a cleaned table whose title column is present but whose titles
yield no token surviving tokenization and stop-word filtering, the
one-shot title-word analysis raises the unpacking error of
`words, counts = zip(*word_freq)` instead of returning an empty result. -/
theorem c10_title_words_raises_on_empty :
    "title" ∈ scenarioStop.cols ∧
      title_tokens scenarioStop = [] ∧
      analyze_title_words scenarioStop 20 =
        Except.error "not enough values to unpack (expected 2, got 0)" := by
  refine ⟨by decide, by decide, by decide⟩

end Cord19
